import Mathlib

/-!
Shallow embedding of the BLE secure file transfer apps: the sender
(`sendersapp.js`) and the receiver app. JavaScript strings and byte buffers
are both modelled as `List Nat` of character codes / byte values; the UI
status strings are omitted. All definitions are executable.
-/

/-- Character codes of the base64 alphabet used by the `react-native-base64`
library, in order; index 64 is the padding character `=` (code 61). -/
def b64chars : List Nat :=
  [65, 66, 67, 68, 69, 70, 71, 72, 73, 74, 75, 76, 77, 78, 79, 80, 81, 82, 83,
   84, 85, 86, 87, 88, 89, 90,
   97, 98, 99, 100, 101, 102, 103, 104, 105, 106, 107, 108, 109, 110, 111, 112,
   113, 114, 115, 116, 117, 118, 119, 120, 121, 122,
   48, 49, 50, 51, 52, 53, 54, 55, 56, 57, 43, 47, 61]

/-- Position of a character in a list (the library's `indexOf` over its
alphabet); characters are looked up only after filtering to the alphabet, so
the not-found case is immaterial. -/
def b64indexIn (c : Nat) : List Nat → Nat
  | [] => 0
  | x :: xs => if x = c then 0 else b64indexIn c xs + 1

def b64idx (c : Nat) : Nat := b64indexIn c b64chars

def b64char (n : Nat) : Nat := b64chars.getD n 0

def isB64Char (c : Nat) : Bool := b64chars.contains c

/-- Base64 `encode` of the `react-native-base64` library: groups of three
input bytes become four alphabet characters, with `=` padding. -/
def b64encode : List Nat → List Nat
  | [] => []
  | [c1] => [b64char (c1 >>> 2), b64char ((c1 &&& 3) <<< 4), 61, 61]
  | [c1, c2] => [b64char (c1 >>> 2), b64char (Nat.lor ((c1 &&& 3) <<< 4) (c2 >>> 4)),
                 b64char ((c2 &&& 15) <<< 2), 61]
  | c1 :: c2 :: c3 :: rest =>
      b64char (c1 >>> 2) :: b64char (Nat.lor ((c1 &&& 3) <<< 4) (c2 >>> 4)) ::
      b64char (Nat.lor ((c2 &&& 15) <<< 2) (c3 >>> 6)) :: b64char (c3 &&& 63) ::
      b64encode rest

/-- Decoding of one group of four alphabet indices; a `=` (index 64) in the
third or fourth slot suppresses the corresponding output byte, exactly as in
the library's decoder. -/
def b64group (e1 e2 e3 e4 : Nat) : List Nat :=
  Nat.lor (e1 <<< 2) (e2 >>> 4) ::
    ((if e3 = 64 then [] else [Nat.lor ((e2 &&& 15) <<< 4) (e3 >>> 2)]) ++
     (if e4 = 64 then [] else [Nat.lor ((e3 &&& 3) <<< 6) (e4 &&& 63)]))

/-- Group loop of the library's base64 `decode`; positions past the end of
the input read as index 0 (`indexOf` of the empty string), as in the
JavaScript implementation. -/
def b64decodeGo : List Nat → List Nat
  | [] => []
  | [c1] => b64group (b64idx c1) 0 0 0
  | [c1, c2] => b64group (b64idx c1) (b64idx c2) 0 0
  | [c1, c2, c3] => b64group (b64idx c1) (b64idx c2) (b64idx c3) 0
  | c1 :: c2 :: c3 :: c4 :: rest =>
      b64group (b64idx c1) (b64idx c2) (b64idx c3) (b64idx c4) ++ b64decodeGo rest

/-- Base64 `decode`: characters outside the alphabet are stripped first, then
the input is processed in groups of four. -/
def b64decode (l : List Nat) : List Nat := b64decodeGo (l.filter isB64Char)

def hexChars : List Nat := [48, 49, 50, 51, 52, 53, 54, 55, 56, 57, 97, 98, 99, 100, 101, 102]

/-- Hex encoding as produced by `Buffer.from(bytes).toString(&quot;hex&quot;)` and by
the hash library's digest output: two lowercase hex characters per byte. -/
def hexEncode : List Nat → List Nat
  | [] => []
  | b :: rest => hexChars.getD (b / 16 % 16) 48 :: hexChars.getD (b % 16) 48 :: hexEncode rest

/-- Modelled from the spec: keystream byte of the external
`react-native-aes-crypto` AES-256-GCM cipher, which is not part of this
repository. The model is an authenticated stream cipher: encryption adds a
key-and-IV-dependent keystream byte to each plaintext byte. -/
def ksByte (key iv : List Nat) (i : Nat) : Nat :=
  (key.sum * 3 + iv.sum * 5 + i * 7 + 13) % 256

/-- Modelled from the spec: the 16-byte authentication tag of the external
AES-256-GCM cipher, a deterministic function of key, IV and ciphertext body
(the spec mandates an `authTag: 16 bytes` and all-or-nothing decryption). -/
def gcmTag (key iv body : List Nat) : List Nat :=
  (List.range 16).map fun j =>
    (key.sum * 2 + iv.sum * 3 + body.sum * 5 + body.length * 11 + j) % 256

def gcmBody (pt key iv : List Nat) : List Nat :=
  (List.range pt.length).map fun i => (pt.getD i 0 + ksByte key iv i) % 256

def gcmUnbody (body key iv : List Nat) : List Nat :=
  (List.range body.length).map fun i => (body.getD i 0 + 256 - ksByte key iv i) % 256

/-- Model of `AES.encrypt(text, key, iv, &quot;aes-256-gcm&quot;)`: returns the base64
encoding of ciphertext body followed by the 16-byte tag. -/
def aesEncrypt (pt key iv : List Nat) : List Nat :=
  b64encode (gcmBody pt key iv ++ gcmTag key iv (gcmBody pt key iv))

/-- Model of `AES.decrypt(cipherBase64, key, iv, &quot;aes-256-gcm&quot;)`: base64
decodes, checks the trailing 16-byte tag against key and IV, and only on
success inverts the keystream; `none` models the thrown decryption error. -/
def aesDecrypt (ctB64 key iv : List Nat) : Option (List Nat) :=
  let data := b64decode ctB64
  if data.length < 16 then none
  else
    if data.drop (data.length - 16) = gcmTag key iv (data.take (data.length - 16)) then
      some (gcmUnbody (data.take (data.length - 16)) key iv)
    else none

def CHUNK_SIZE : Nat := 180

/-- Loop body of `chunkBase64String`, structurally recursive on a fuel bound
(the input length bounds the number of iterations of the `while` loop). -/
def chunkGo : Nat → List Nat → List (List Nat)
  | 0, _ => []
  | _, [] => []
  | Nat.succ fuel, s => s.take CHUNK_SIZE :: chunkGo fuel (s.drop CHUNK_SIZE)

/-- Sender `chunkBase64String`: slices the base64 file string into pieces of
`CHUNK_SIZE` (180) characters. -/
def chunkBase64String (base64Str : List Nat) : List (List Nat) :=
  chunkGo base64Str.length base64Str

/-- Sender `encryptChunk`: returns `iv + cipher` as one string. The `iv`
argument stands for the value of `AES.randomKey(12)`, which is the hex string
of twelve random bytes, i.e. a 24-character string. -/
def encryptChunk (aesKey iv chunkBase64 : List Nat) : List Nat :=
  iv ++ aesEncrypt chunkBase64 aesKey iv

/-- Value the sender passes to `writeWithoutResponse`: the base64 encoding of
the `encryptChunk` output (`sendFileChunks`). -/
def senderWire (aesKey iv chunkBase64 : List Nat) : List Nat :=
  b64encode (encryptChunk aesKey iv chunkBase64)

/-- String the receiver's monitor callback hands to `processReceivedChunk`:
the BLE stack carries the decoded bytes of the write and presents them
re-encoded, and the callback applies `base64.decode` once. -/
def receiverInbound (aesKey iv chunkBase64 : List Nat) : List Nat :=
  b64decode (senderWire aesKey iv chunkBase64)

/-- Sender monitor callback on the transfer characteristic: sets the
`ackReceived` flag exactly when the decoded notification equals `&quot;ACK&quot;`. -/
def senderOnAck (value : List Nat) (ackFlag : Bool) : Bool :=
  if value = [65, 67, 75] then true else ackFlag

/-- Receiver `decryptChunk`: base64 decodes its argument (a second decode of
the already-decoded notification), splits the first 12 characters off as the
IV and hands the rest to the AES library. -/
def decryptChunk (aesKey encryptedChunkBase64 : List Nat) : Option (List Nat) :=
  let encryptedData := b64decode encryptedChunkBase64
  aesDecrypt (encryptedData.drop 12) aesKey (encryptedData.take 12)

/-- Receiver application state: cryptographic refs, connection ref, and the
reassembly state (`receivedChunks`, `totalChunks`). The fields `acks` and
`savedFile` record the ACK writes performed and the file written by
`assembleAndSaveFile`, so the state captures the app's outputs. -/
structure ReceiverApp where
  ephemeralKeyPair : Option (List Nat × List Nat)
  sharedSecret : Option (List Nat)
  aesKey : Option (List Nat)
  connectedDevice : Option Nat
  receivedFileName : Option (List Nat)
  transferProgress : Nat
  receivedChunks : List (List Nat)
  totalChunks : Nat
  acks : List (List Nat)
  savedFile : Option (List Nat)

deriving instance DecidableEq for ReceiverApp

/-- Initial receiver state: `receivedChunks = []` and `totalChunks = 0`, as
declared by the refs in the receiver app; no key material yet. -/
def initReceiver : ReceiverApp :=
  { ephemeralKeyPair := none, sharedSecret := none, aesKey := none,
    connectedDevice := none, receivedFileName := none, transferProgress := 0,
    receivedChunks := [], totalChunks := 0, acks := [], savedFile := none }

/-- Receiver `processReceivedChunk`: decrypt; on success push the chunk, write
one `&quot;ACK&quot;` (base64-encoded for the BLE write), and if the received count now
equals `totalChunks`, assemble (`join`) and save the file. On a decryption
error only the error message is set, so the state is unchanged here. -/
def processReceivedChunk (aesKey : List Nat) (r : ReceiverApp)
    (encryptedChunkBase64 : List Nat) : ReceiverApp :=
  match decryptChunk aesKey encryptedChunkBase64 with
  | none => r
  | some decryptedChunk =>
      let r1 := { r with receivedChunks := r.receivedChunks ++ [decryptedChunk],
                         acks := r.acks ++ [b64encode [65, 67, 75]] }
      if r1.receivedChunks.length = r1.totalChunks then
        { r1 with savedFile := some r1.receivedChunks.flatten,
                  receivedFileName := some [114] }
      else r1

/-- Sequential delivery of several inbound frames to the receiver. -/
def processAll (aesKey : List Nat) (r : ReceiverApp) (msgs : List (List Nat)) : ReceiverApp :=
  msgs.foldl (processReceivedChunk aesKey) r

/-- Receiver `onDeviceDisconnected` handler: clears connection, file name,
progress and the reassembly buffer; the cryptographic refs are not touched. -/
def onDeviceDisconnected (r : ReceiverApp) : ReceiverApp :=
  { r with connectedDevice := none, receivedFileName := none,
           transferProgress := 0, receivedChunks := [], totalChunks := 0 }

/-- Sender application state (the refs and state variables of
`sendersapp.js` that `disconnectDevice` touches or could touch). -/
structure SenderApp where
  ephemeralKeyPair : Option (List Nat × List Nat)
  sharedSecret : Option (List Nat)
  aesKey : Option (List Nat)
  connectedDevice : Option Nat
  fileInfo : Option (List Nat)
  transferProgress : Nat
  devices : List Nat
  errorMsg : Option (List Nat)

deriving instance DecidableEq for SenderApp

/-- Sender `disconnectDevice`: when a device is connected it cancels the
connection and resets connection, device list, file info, progress and error;
the cryptographic refs are not touched. -/
def disconnectDevice (s : SenderApp) : SenderApp :=
  if s.connectedDevice.isSome then
    { s with connectedDevice := none, devices := [], fileInfo := none,
             transferProgress := 0, errorMsg := none }
  else s

/-- Sender loop state for `sendFileChunks`: index of the next chunk to write,
the `ackReceived` flag, and the number of chunks. -/
structure SenderS where
  nextIdx : Nat
  ackReceived : Bool
  total : Nat

deriving instance DecidableEq for SenderS

/-- Events observable at the sender: writing chunk `i` to the transfer
characteristic, or the arrival of an ACK notification. -/
inductive SenderEv where
  | send (i : Nat)
  | ackArrives

deriving instance DecidableEq for SenderEv

/-- Initial sender loop state: `ackReceived` is declared `useRef(true)` and
the loop starts at chunk 0. -/
def initSender (totalChunks : Nat) : SenderS :=
  { nextIdx := 0, ackReceived := true, total := totalChunks }

/-- Small-step semantics of the sender: one iteration of the `sendFileChunks`
loop body (spin until `ackReceived`, clear it, write the chunk), or the ACK
monitor callback setting `ackReceived`. -/
inductive SenderStep : SenderS → SenderEv → SenderS → Prop where
  | send (s : SenderS) (h1 : s.ackReceived = true) (h2 : s.nextIdx < s.total) :
      SenderStep s (SenderEv.send s.nextIdx)
        { nextIdx := s.nextIdx + 1, ackReceived := false, total := s.total }
  | ack (s : SenderS) :
      SenderStep s SenderEv.ackArrives
        { nextIdx := s.nextIdx, ackReceived := true, total := s.total }

/-- Reflexive-transitive runs of the sender semantics, recording the event
list. -/
inductive Trace : SenderS → List SenderEv → SenderS → Prop where
  | nil (s : SenderS) : Trace s [] s
  | cons {s s1 u : SenderS} {e : SenderEv} {es : List SenderEv} :
      SenderStep s e s1 → Trace s1 es u → Trace s (e :: es) u

/-- Big-endian 4-byte encoding of a 32-bit sequence number. -/
def be32 (n : Nat) : List Nat := [n / 16777216 % 256, n / 65536 % 256, n / 256 % 256, n % 256]

/-- Wire frame layout mandated by the spec: 4-byte big-endian sequence
number, 1 flags byte whose bit 0 is `isLast`, 12-byte nonce, ciphertext, and
16-byte tag. -/
def isWireFrame (seq : Nat) (last : Bool) (payload : List Nat) : Prop :=
  ∃ nonce ct tag : List Nat, nonce.length = 12 ∧ tag.length = 16 ∧
    payload = be32 seq ++ (if last then 1 else 0) :: (nonce ++ ct ++ tag)

def isHexDigit (c : Nat) : Bool := (48 ≤ c && c ≤ 57) || (97 ≤ c && c ≤ 102)

/-- Sender and receiver `deriveAESKey`, parametric in the external SHA-256
digest `H` (bytes to 32 digest bytes): hex-encode the shared secret, hash it,
hex-encode the digest and keep the first 64 hex characters as `aesKeyHex`. -/
def deriveAESKey (H : List Nat → List Nat) (sharedSecretBytes : List Nat) : List Nat :=
  (hexEncode (H (hexEncode sharedSecretBytes))).take 64

/-- Modelled from the spec: HMAC key block (key hashed if longer than the
64-byte block, then zero-padded), for the extract-and-expand comparison. -/
def hmacKey0 (H : List Nat → List Nat) (key : List Nat) : List Nat :=
  if 64 < key.length then H key else key

def hmacKeyBlock (H : List Nat → List Nat) (key : List Nat) : List Nat :=
  hmacKey0 H key ++ List.replicate (64 - (hmacKey0 H key).length) 0

/-- Modelled from the spec: HMAC over hash `H` with the standard inner and
outer paddings (54 and 92). -/
def hmac (H : List Nat → List Nat) (key msg : List Nat) : List Nat :=
  H ((hmacKeyBlock H key).map (fun b => b ^^^ 92) ++
     H ((hmacKeyBlock H key).map (fun b => b ^^^ 54) ++ msg))

/-- Modelled from the spec: the salted extract step of a standard
extract-and-expand key derivation. -/
def hkdfExtract (H : List Nat → List Nat) (salt ikm : List Nat) : List Nat :=
  hmac H salt ikm

/-- Modelled from the spec: the expand step with a fixed context label,
producing exactly 32 bytes (one HMAC block, truncated). -/
def hkdfExpand (H : List Nat → List Nat) (prk label : List Nat) : List Nat :=
  (hmac H prk (label ++ [1])).take 32

/-- Modelled from the spec: a standard extract-and-expand key derivation
(salted extract over the shared secret, expand with a fixed context label)
producing exactly 32 bytes. -/
def hkdfDerive (H : List Nat → List Nat) (salt ikm label : List Nat) : List Nat :=
  hkdfExpand H (hkdfExtract H salt ikm) label

/-- Distinguishing digest model: behaves differently on 64-character inputs
(the length of the hex-encoded 32-byte shared secret) than on every other
length; HMAC never hashes a 64-long message internally. -/
def splitHash (m : List Nat) : List Nat :=
  if m.length = 64 then List.replicate 32 0 else List.replicate 32 1

/-- Sample 64-character `aesKeyHex` value. -/
def exKey : List Nat := List.replicate 64 97

/-- Sample output of `AES.randomKey(12)`: 24 hex characters. -/
def exIv : List Nat := List.replicate 24 48

/-- Sample plaintext chunk (a slice of the base64 file string). -/
def exChunk : List Nat := [81, 85, 74, 68]

/-- Sample 12-character IV as the receiver slices it. -/
def ivRaw : List Nat := List.replicate 12 65

def exPlain : List Nat := [104, 105]

/-- Inbound message that decrypts successfully on the receiver: base64 of a
12-character IV followed by a matching model ciphertext. -/
def exMsg : List Nat := b64encode (ivRaw ++ aesEncrypt exPlain exKey ivRaw)

/-- Sample 200-character base64 file string. -/
def file200 : List Nat := List.replicate 200 65

/-- Sender state holding key material and an active connection. -/
def exSenderApp : SenderApp :=
  { ephemeralKeyPair := some ([1], [2]), sharedSecret := some [3], aesKey := some [4],
    connectedDevice := some 0, fileInfo := some [9], transferProgress := 50,
    devices := [5], errorMsg := none }

/-- Splitting a run at a list concatenation point. -/
theorem trace_split {s u : SenderS} (xs : List SenderEv) {ys : List SenderEv}
    (h : Trace s (xs ++ ys) u) : ∃ m, Trace s xs m ∧ Trace m ys u := by
  induction xs generalizing s with
  | nil => exact ⟨s, Trace.nil s, h⟩
  | cons e es ih =>
      cases h with
      | cons hstep htail =>
          obtain ⟨m, h1, h2⟩ := ih htail
          exact ⟨m, Trace.cons hstep h1, h2⟩

/-- With `ackReceived = false` and no ACK arriving, the sender loop cannot
take any step: it spins in the `while` wait forever. -/
theorem senderBlockedOfNoAck {s u : SenderS} {es : List SenderEv}
    (h : Trace s es u) (hack : s.ackReceived = false)
    (hno : SenderEv.ackArrives ∉ es) : es = [] := by
  cases h with
  | nil => rfl
  | cons hstep htail =>
      cases hstep with
      | send h1 h2 => rw [hack] at h1; simp at h1
      | ack => exact absurd (List.mem_cons_self _ _) hno

/-- Chunk indices below the loop counter are never written again. -/
theorem no_send_lt {s u : SenderS} {es : List SenderEv}
    (h : Trace s es u) : ∀ i < s.nextIdx, SenderEv.send i ∉ es := by
  induction h with
  | nil => intro i _ hm; exact absurd hm (List.not_mem_nil _)
  | cons hstep htail ih =>
      rename_i s' s1 u' e' es'
      intro i hi hm
      cases hstep with
      | send h1 h2 =>
          rcases List.mem_cons.mp hm with hhead | htl
          · exact absurd (SenderEv.send.inj hhead) (Nat.ne_of_lt hi)
          · exact ih i (Nat.lt_succ_of_lt hi) htl
      | ack =>
          rcases List.mem_cons.mp hm with hhead | htl
          · exact SenderEv.noConfusion hhead
          · exact ih i hi htl

/-- Each chunk index is written at most once in any sender run. -/
theorem count_send_le_one {s u : SenderS} {es : List SenderEv}
    (h : Trace s es u) : ∀ i, es.count (SenderEv.send i) ≤ 1 := by
  induction h with
  | nil => intro i; simp
  | cons hstep htail ih =>
      rename_i s' s1 u' e' es'
      intro i
      cases hstep with
      | send h1 h2 =>
          by_cases hi : i = s'.nextIdx
          · subst hi
            have hnot : SenderEv.send s'.nextIdx ∉ es' :=
              no_send_lt htail s'.nextIdx (Nat.lt_succ_self _)
            simp [List.count_cons, List.count_eq_zero.mpr hnot]
          · have hne : SenderEv.send i ≠ SenderEv.send s'.nextIdx := by
              intro hc; exact hi (SenderEv.send.inj hc)
            simpa [List.count_cons, hne] using ih i
      | ack =>
          simpa [List.count_cons] using ih i

/-- Claim C6: stop-and-wait flow control — in every sender run, between any
two chunk writes an ACK notification arrives, so the next frame is never
written to the transfer characteristic before the outstanding one has been
acknowledged. -/
theorem c6_stop_and_wait (n : Nat) (es : List SenderEv) (u : SenderS)
    (a b c : List SenderEv) (i j : Nat)
    (ht : Trace (initSender n) es u)
    (hsplit : es = a ++ SenderEv.send i :: (b ++ SenderEv.send j :: c)) :
    SenderEv.ackArrives ∈ b := by
  subst hsplit
  obtain ⟨m1, _, h2⟩ := trace_split a ht
  cases h2 with
  | cons hstep htail =>
      rename_i s1
      have hfalse : s1.ackReceived = false := by
        cases hstep with
        | send h1 h2 => rfl
      by_contra hno
      obtain ⟨m2, hb, hrest⟩ := trace_split b htail
      have hb0 : b = [] := senderBlockedOfNoAck hb hfalse hno
      subst hb0
      cases hb with
      | nil =>
          cases hrest with
          | cons hstep2 htail2 =>
              cases hstep2 with
              | send h1 h2 => rw [hfalse] at h1; simp at h1

/-- Witness for C6 at a concrete two-chunk run. -/
theorem c6_witness : SenderEv.ackArrives ∈ ([SenderEv.ackArrives] : List SenderEv) :=
  c6_stop_and_wait 2 [SenderEv.send 0, SenderEv.ackArrives, SenderEv.send 1]
    { nextIdx := 2, ackReceived := false, total := 2 }
    [] [SenderEv.ackArrives] [] 0 1
    (Trace.cons (SenderStep.send (initSender 2) rfl (by decide))
      (Trace.cons (SenderStep.ack _)
        (Trace.cons (SenderStep.send _ rfl (by decide)) (Trace.nil _))))
    rfl

/-- Claim C7, counterexample: in the state awaiting an acknowledgment the
sender has no step at all other than an ACK arriving — no retransmission of
the outstanding frame and no transition to a failed state ever happens when
the ACK does not arrive. -/
theorem c7_counterexample :
    ¬ ∃ (e : SenderEv) (u : SenderS),
        SenderStep { nextIdx := 1, ackReceived := false, total := 2 } e u ∧
          e ≠ SenderEv.ackArrives := by
  rintro ⟨e, u, hstep, hne⟩
  cases hstep with
  | send h1 h2 => simp at h1
  | ack => exact hne rfl

/-- Claim C7, amended: the sender has no acknowledgment timeout — if no ACK
notification arrives while `ackReceived` is false, the run cannot extend at
all (the sender waits indefinitely), and no chunk index is ever written
twice (there is no retransmission). -/
theorem c7_amended :
    (∀ (s u : SenderS) (es : List SenderEv),
        Trace s es u → s.ackReceived = false → SenderEv.ackArrives ∉ es → es = []) ∧
    (∀ (s u : SenderS) (es : List SenderEv) (i : Nat),
        Trace s es u → es.count (SenderEv.send i) ≤ 1) :=
  ⟨fun _ _ _ h h1 h2 => senderBlockedOfNoAck h h1 h2,
   fun _ _ _ i h => count_send_le_one h i⟩

/-- Witness for C7 at a concrete state and run. -/
theorem c7_witness :
    ([SenderEv.ackArrives] : List SenderEv).count (SenderEv.send 0) ≤ 1 :=
  c7_amended.2 (initSender 2) { nextIdx := 0, ackReceived := true, total := 2 }
    [SenderEv.ackArrives] 0 (Trace.cons (SenderStep.ack _) (Trace.nil _))

/-- Claim C1: the receiver cannot decrypt what the sender sent — the frame
produced for chunk `exChunk` (encryption, transport encoding, then the
receiver's decoding) fails authenticated decryption instead of returning the
chunk, because `decryptChunk` base64-decodes the already-decoded payload and
splits the IV after 12 characters although the sender's IV string has 24 hex
characters. -/
theorem c1_roundtrip_fails :
    decryptChunk exKey (receiverInbound exKey exIv exChunk) = none ∧
    decryptChunk exKey (receiverInbound exKey exIv exChunk) ≠ some exChunk := by
  decide

/-- One delivery keeps the completion check dead: `totalChunks` stays 0 and
no file is ever saved. -/
theorem process_keeps_inv (key m : List Nat) (r : ReceiverApp)
    (h0 : r.totalChunks = 0) (hs : r.savedFile = none) :
    (processReceivedChunk key r m).totalChunks = 0 ∧
    (processReceivedChunk key r m).savedFile = none := by
  unfold processReceivedChunk
  cases hdec : decryptChunk key m with
  | none => exact ⟨h0, hs⟩
  | some p =>
      dsimp only
      split
      · rename_i hcond
        exfalso
        simp [h0] at hcond
      · exact ⟨h0, hs⟩

/-- Invariant of `processAll`: from the initial receiver configuration the
total-chunk counter stays 0 and nothing is saved. -/
theorem processAll_inv (key : List Nat) (msgs : List (List Nat)) :
    ∀ r : ReceiverApp, r.totalChunks = 0 → r.savedFile = none →
      (processAll key r msgs).totalChunks = 0 ∧ (processAll key r msgs).savedFile = none := by
  induction msgs with
  | nil => intro r h0 hs; exact ⟨h0, hs⟩
  | cons m rest ih =>
      intro r h0 hs
      have hstep := process_keeps_inv key m r h0 hs
      have hrec := ih (processReceivedChunk key r m) hstep.1 hstep.2
      simpa [processAll] using hrec

/-- Claim C2: completion detection never fires — whatever frames the
receiver processes from its initial state, `assembleAndSaveFile` is never
reached (`savedFile` stays `none`), even though, as the second conjunct
shows, a successfully transferred chunk is sitting in the reassembly
buffer. -/
theorem c2_receiver_never_saves :
    (∀ (key : List Nat) (msgs : List (List Nat)),
        (processAll key initReceiver msgs).savedFile = none) ∧
    (processAll exKey initReceiver [exMsg]).receivedChunks = [exPlain] := by
  constructor
  · intro key msgs
    exact (processAll_inv key msgs initReceiver rfl rfl).2
  · decide

/-- Claim C8, counterexample: the acknowledgment the receiver emits for a
received frame is the fixed string `ACK` (bytes 65, 67, 75 after transport
decoding), which is not the 4-byte big-endian sequence number of any
frame. -/
theorem c8_counterexample :
    (processReceivedChunk exKey initReceiver exMsg).acks = [b64encode [65, 67, 75]] ∧
    ¬ ∃ seq : Nat, b64decode (b64encode [65, 67, 75]) = be32 seq := by
  constructor
  · decide
  · rintro ⟨seq, h⟩
    have h3 : (b64decode (b64encode [65, 67, 75])).length = 3 := by decide
    rw [h] at h3
    simp [be32] at h3

/-- Claim C8, amended: every successfully decrypted frame is acknowledged
with exactly one ACK whose payload is the fixed 3-byte string `ACK`, with no
sequence number; the sender's monitor accepts any `ACK` notification
(setting `ackReceived`) and ignores everything else. -/
theorem c8_amended :
    (∀ (key : List Nat) (r : ReceiverApp) (m p : List Nat),
        decryptChunk key m = some p →
        (processReceivedChunk key r m).acks = r.acks ++ [b64encode [65, 67, 75]]) ∧
    (∀ b : Bool, senderOnAck [65, 67, 75] b = true) ∧
    (∀ (v : List Nat) (b : Bool), v ≠ [65, 67, 75] → senderOnAck v b = b) := by
  refine ⟨?_, ?_, ?_⟩
  · intro key r m p h
    unfold processReceivedChunk
    rw [h]
    dsimp only
    split <;> rfl
  · intro b; rfl
  · intro v b hv; simp [senderOnAck, hv]

/-- Witness for C8 at a concrete receiver state and frame. -/
theorem c8_witness :
    (processReceivedChunk exKey initReceiver exMsg).acks =
      initReceiver.acks ++ [b64encode [65, 67, 75]] :=
  c8_amended.1 exKey initReceiver exMsg exPlain (by decide)

/-- Claim C9, counterexample: redelivering the already-processed frame
`exMsg` changes the reassembly buffer — the duplicate is appended a second
time rather than dropped. -/
theorem c9_counterexample :
    (processReceivedChunk exKey (processReceivedChunk exKey initReceiver exMsg) exMsg).receivedChunks
      ≠ (processReceivedChunk exKey initReceiver exMsg).receivedChunks := by
  decide

/-- Claim C9, amended: the receiver has no duplicate detection — every frame
that decrypts successfully, including a redelivered one, is appended to the
reassembly buffer (and acknowledged again), duplicating its content. -/
theorem c9_amended (key : List Nat) (r : ReceiverApp) (m p : List Nat)
    (h : decryptChunk key m = some p) :
    (processReceivedChunk key r m).receivedChunks = r.receivedChunks ++ [p] := by
  unfold processReceivedChunk
  rw [h]
  dsimp only
  split <;> rfl

/-- Witness for C9 at a concrete receiver state and frame. -/
theorem c9_witness :
    (processReceivedChunk exKey initReceiver exMsg).receivedChunks =
      initReceiver.receivedChunks ++ [exPlain] :=
  c9_amended exKey initReceiver exMsg exPlain (by decide)

/-- Byte at the flags position of a spec-conformant wire frame. -/
theorem wireFrame_flag {seq : Nat} {last : Bool} {payload : List Nat}
    (h : isWireFrame seq last payload) :
    payload[4]? = some (if last then 1 else 0) := by
  obtain ⟨nonce, ct, tag, h12, h16, heq⟩ := h
  subst heq
  rw [List.getElem?_append_right (by simp [be32])]
  simp [be32]

/-- Claim C3, counterexample: the payload the sender actually produces for a
chunk does not have the mandated frame layout for sequence number 0 with the
last flag clear — its fifth byte is the hex character 48 of the IV, not a
flags byte. -/
theorem c3_counterexample : ¬ isWireFrame 0 false (encryptChunk exKey exIv exChunk) := by
  intro h
  have hflag := wireFrame_flag h
  have h48 : (encryptChunk exKey exIv exChunk)[4]? = some 48 := by decide
  rw [h48] at hflag
  simp at hflag

/-- Claim C3, amended: every wire frame the sender writes is the plain
concatenation of the 24-character hex IV string and the base64 ciphertext
(then base64-encoded for the BLE write); it carries no sequence number, no
flags byte and no separately framed tag, and for no sequence number or flag
value does it match the mandated layout, because the byte at the flags
position is a hex digit of the IV. -/
theorem c3_amended (key iv chunk : List Nat) (seq : Nat) (last : Bool)
    (hlen : iv.length = 24) (hhex : ∀ c ∈ iv, isHexDigit c = true) :
    encryptChunk key iv chunk = iv ++ aesEncrypt chunk key iv ∧
    ¬ isWireFrame seq last (encryptChunk key iv chunk) := by
  refine ⟨rfl, ?_⟩
  intro h
  have hflag := wireFrame_flag h
  have h4 : 4 < iv.length := by omega
  have hiv : (encryptChunk key iv chunk)[4]? = some iv[4] := by
    unfold encryptChunk
    rw [List.getElem?_append, if_pos h4, List.getElem?_eq_getElem h4]
  rw [hiv] at hflag
  have hmem : iv[4] ∈ iv := List.getElem_mem h4
  have hdig := hhex _ hmem
  simp [isHexDigit] at hdig
  have heq := Option.some.inj hflag
  cases last with
  | true =>
      simp at heq
      rcases hdig with ⟨ha, _⟩ | ⟨ha, _⟩ <;> omega
  | false =>
      simp at heq
      rcases hdig with ⟨ha, _⟩ | ⟨ha, _⟩ <;> omega

/-- Witness for C3 at a concrete IV, key, chunk and frame header. -/
theorem c3_witness :
    encryptChunk exKey exIv exChunk = exIv ++ aesEncrypt exChunk exKey exIv ∧
    ¬ isWireFrame 5 true (encryptChunk exKey exIv exChunk) :=
  c3_amended exKey exIv exChunk 5 true (by decide) (by decide)

set_option maxRecDepth 40000 in
/-- Claim C4: the first chunk of a 200-character base64 file string has the
full 180 characters, and the payload written for it (24-character IV plus
base64 of ciphertext and 16-byte tag) is 288 bytes, exceeding the 180-byte
transport budget. -/
theorem c4_payload_exceeds :
    (chunkBase64String file200).headD [] = List.replicate 180 65 ∧
    (encryptChunk exKey exIv (List.replicate 180 65)).length = 288 ∧
    CHUNK_SIZE < (encryptChunk exKey exIv (List.replicate 180 65)).length := by
  refine ⟨by decide, by decide, by decide⟩

theorem splitHash_len (m : List Nat) : (splitHash m).length = 32 := by
  unfold splitHash
  split <;> simp

theorem splitHash_ne64 (m : List Nat) (h : m.length ≠ 64) :
    splitHash m = List.replicate 32 1 := by
  unfold splitHash
  rw [if_neg h]

theorem hmacKey0_le (H : List Nat → List Nat) (hH : ∀ m, (H m).length = 32)
    (key : List Nat) : (hmacKey0 H key).length ≤ 64 := by
  unfold hmacKey0
  split
  · simp [hH]
  · next h => omega

theorem hmacKeyBlock_len (H : List Nat → List Nat) (hH : ∀ m, (H m).length = 32)
    (key : List Nat) : (hmacKeyBlock H key).length = 64 := by
  have h := hmacKey0_le H hH key
  unfold hmacKeyBlock
  simp only [List.length_append, List.length_replicate]
  omega

/-- The distinguishing digest never sees a 64-long input inside HMAC, so
every HMAC value collapses to the same constant. -/
theorem hmac_splitHash (key msg : List Nat) (h : msg ≠ []) :
    hmac splitHash key msg = List.replicate 32 1 := by
  have hb : (hmacKeyBlock splitHash key).length = 64 :=
    hmacKeyBlock_len splitHash splitHash_len key
  have hm : 0 < msg.length := List.length_pos.mpr h
  unfold hmac
  have h1 : ((hmacKeyBlock splitHash key).map (fun b => b ^^^ 54) ++ msg).length ≠ 64 := by
    rw [List.length_append, List.length_map, hb]
    omega
  rw [splitHash_ne64 _ h1]
  have h2 : ((hmacKeyBlock splitHash key).map (fun b => b ^^^ 92) ++
      List.replicate 32 1).length ≠ 64 := by
    rw [List.length_append, List.length_map, hb, List.length_replicate]
    omega
  rw [splitHash_ne64 _ h2]

/-- Extract-and-expand with the distinguishing digest is the constant 1
vector, for every salt and context label. -/
theorem hkdf_splitHash (salt label : List Nat) :
    hkdfDerive splitHash salt (List.replicate 32 0) label = List.replicate 32 1 := by
  unfold hkdfDerive hkdfExpand hkdfExtract
  rw [hmac_splitHash salt _ (by decide)]
  rw [hmac_splitHash _ _ (by simp)]
  simp

/-- Claim C5, counterexample: the key-derivation step of `deriveAESKey` is
not an extract-and-expand derivation — for every choice of salt and context
label there is a digest function and a 32-byte shared secret on which the
code's single-hash-of-hex construction and the extract-and-expand
construction disagree. -/
theorem c5_counterexample :
    ¬ ∃ salt label : List Nat, ∀ (H : List Nat → List Nat) (secret : List Nat),
        secret.length = 32 →
        deriveAESKey H secret = hexEncode (hkdfDerive H salt secret label) := by
  rintro ⟨salt, label, hall⟩
  have h := hall splitHash (List.replicate 32 0) (by simp)
  rw [hkdf_splitHash salt label] at h
  exact absurd h (by decide)

theorem hexEncode_length (l : List Nat) : (hexEncode l).length = 2 * l.length := by
  induction l with
  | nil => rfl
  | cons b rest ih =>
      simp only [hexEncode, List.length_cons, ih]
      omega

/-- Claim C5, amended: the derivation hashes the hex encoding of the shared
secret once and keeps the whole 64-hex-character digest (the `slice(0, 64)`
truncates nothing), so the session key is exactly the 32-byte bare digest —
no salted extract, no expand step, no context label. -/
theorem c5_amended (H : List Nat → List Nat) (secret : List Nat)
    (hH : ∀ m, (H m).length = 32) :
    deriveAESKey H secret = hexEncode (H (hexEncode secret)) ∧
    (deriveAESKey H secret).length = 64 := by
  have hlen : (hexEncode (H (hexEncode secret))).length = 64 := by
    rw [hexEncode_length, hH]
  constructor
  · unfold deriveAESKey
    exact List.take_of_length_le (by omega)
  · unfold deriveAESKey
    rw [List.length_take, hlen]
    simp

/-- Witness for C5 at a concrete digest model and secret. -/
theorem c5_witness :
    deriveAESKey (fun _ => List.replicate 32 5) [7] =
      hexEncode ((fun _ => List.replicate 32 5) (hexEncode [7])) ∧
    (deriveAESKey (fun _ => List.replicate 32 5) [7]).length = 64 :=
  c5_amended (fun _ => List.replicate 32 5) [7] (fun m => by simp)

/-- Claim C10, counterexample: disconnecting the sender while it holds key
material does not discard it — the ephemeral keypair, shared secret and
derived AES key are all still present afterwards. -/
theorem c10_counterexample :
    ¬ ((disconnectDevice exSenderApp).ephemeralKeyPair = none ∧
       (disconnectDevice exSenderApp).sharedSecret = none ∧
       (disconnectDevice exSenderApp).aesKey = none) := by
  decide

/-- Claim C10, amended: on disconnect the sender resets connection, device
list, file info, progress and error, and the receiver releases the
reassembly buffer, but on both sides the ephemeral keypair, the shared
secret and the derived AES key refs are left untouched — key material
survives the session. -/
theorem c10_amended (s : SenderApp) (r : ReceiverApp) :
    (disconnectDevice s).ephemeralKeyPair = s.ephemeralKeyPair ∧
    (disconnectDevice s).sharedSecret = s.sharedSecret ∧
    (disconnectDevice s).aesKey = s.aesKey ∧
    (onDeviceDisconnected r).ephemeralKeyPair = r.ephemeralKeyPair ∧
    (onDeviceDisconnected r).sharedSecret = r.sharedSecret ∧
    (onDeviceDisconnected r).aesKey = r.aesKey ∧
    (onDeviceDisconnected r).receivedChunks = [] ∧
    (onDeviceDisconnected r).totalChunks = 0 := by
  unfold disconnectDevice onDeviceDisconnected
  split <;> simp
